import Mathlib

/-!
Verification of the ADGM corporate-agent document-review engine.

This file gives a shallow embedding of the core of the engine
(`src/core/document_parser.py`, `src/core/compliance_checker.py`,
`src/core/checklist_verifier.py`, `src/core/processing_engine.py`,
`src/core/document_annotator.py`) and proves properties of it.

Python strings are modelled as `List Char`; Python floats that carry exact
small fractions (confidence scores, compliance scores) are modelled as `ℚ`;
Python exceptions are modelled with `Except`.  The small regex subset used by
the engine (literal runs, `\s+`, an optional `s?`, `.`, `\b`, bounded digit
repetitions, a fixed alternation and one fixed negative lookahead) is embedded
as a token list with a backtracking matcher.
-/

namespace ADGM

/-- Characters of a Python string. -/
abbrev Chars := List Char

/-- The character list of a string literal. -/
def str (s : String) : Chars := s.data

/-- The apostrophe character (U+0027), kept out of string literals. -/
def apos : Char := Char.ofNat 39

/-- Python `str.lower()` restricted to the ASCII texts the engine handles. -/
def toLowerStr (cs : Chars) : Chars := cs.map Char.toLower

/-- Python `str.upper()` restricted to ASCII. -/
def toUpperStr (cs : Chars) : Chars := cs.map Char.toUpper

/-- The whitespace class of Python `\s` / `str.split()` (ASCII part). -/
def isWsPy (c : Char) : Bool :=
  c = ' ' ∨ c = '\t' ∨ c = '\n' ∨ c = '\r' ∨ c = '\x0b' ∨ c = '\x0c'

/-- The word-character class of Python `\w` (ASCII part), used by `\b`. -/
def isWordChar (c : Char) : Bool :=
  ('a' ≤ c ∧ c ≤ 'z') ∨ ('A' ≤ c ∧ c ≤ 'Z') ∨ ('0' ≤ c ∧ c ≤ '9') ∨ c = '_'

/-- ASCII decimal digit, the `\d` class on the engine's texts. -/
def isDigitChar (c : Char) : Bool := '0' ≤ c ∧ c ≤ '9'

/-- Length of the leading whitespace run. -/
def wsRunLen (cs : Chars) : ℕ := (cs.takeWhile isWsPy).length

/-- Length of the leading digit run. -/
def digitRunLen (cs : Chars) : ℕ := (cs.takeWhile isDigitChar).length

/-- Python substring containment, `needle in hay`. -/
def containsSub (needle hay : Chars) : Bool :=
  hay.tails.any (fun t => needle.isPrefixOf t)

/-- Python `hay.find(needle)`: index of the first occurrence, if any. -/
def subIdx (needle hay : Chars) : Option ℕ :=
  (hay.tails.enum.find? (fun it => needle.isPrefixOf it.2)).map Prod.fst

/-- Check for the fixed negative lookahead `(?!\s+global\s+market)` of the
`abu\s+dhabi\s+courts?` pattern: does `\s+global\s+market` match here?
(`\s+` is followed by a non-space literal, so only the maximal run can match.) -/
def gmLookahead (cs : Chars) : Bool :=
  let w := wsRunLen cs
  if w = 0 then false
  else
    let cs1 := cs.drop w
    if (str "global").isPrefixOf cs1 then
      let cs2 := cs1.drop 6
      let w2 := wsRunLen cs2
      if w2 = 0 then false else (str "market").isPrefixOf (cs2.drop w2)
    else false

/-- Tokens of the regex subset used by the engine's patterns. -/
inductive Tok where
  /-- a literal character -/
  | lit (c : Char)
  /-- `.` (any character but a newline) -/
  | anyNotNl
  /-- `\s+` -/
  | wsPlus
  /-- an optional character, `c?` -/
  | optChar (c : Char)
  /-- `\d{lo,hi}` -/
  | digits (lo hi : ℕ)
  /-- `\b` -/
  | wordB
  /-- a fixed alternation of literal strings, `(?:s₁|s₂|…)` -/
  | altStrs (ss : List Chars)
  /-- the fixed negative lookahead `(?!\s+global\s+market)` -/
  | negLAGlobalMarket
deriving DecidableEq

/-- The numbers of characters a token may consume at this point, listed in the
backtracking priority order of Python `re` (greedy repetitions longest first,
alternation left to right).  `prev` is the character before the current
position, for `\b`. -/
def Tok.alts (t : Tok) (prev : Option Char) (cs : Chars) : List ℕ :=
  match t with
  | .lit c =>
      match cs with
      | [] => []
      | d :: _ => if d = c then [1] else []
  | .anyNotNl =>
      match cs with
      | [] => []
      | d :: _ => if d = '\n' then [] else [1]
  | .wsPlus =>
      let n := wsRunLen cs
      (List.range n).map (fun k => n - k)
  | .optChar c =>
      match cs with
      | [] => [0]
      | d :: _ => if d = c then [1, 0] else [0]
  | .digits lo hi =>
      let n := min (digitRunLen cs) hi
      ((List.range (n + 1)).map (fun k => n - k)).filter (fun k => lo ≤ k)
  | .wordB =>
      let pw := match prev with | none => false | some c => isWordChar c
      let nw := match cs with | [] => false | c :: _ => isWordChar c
      if pw ≠ nw then [0] else []
  | .altStrs ss => (ss.filter (fun s => s.isPrefixOf cs)).map List.length
  | .negLAGlobalMarket => if gmLookahead cs then [] else [0]

/-- Backtracking matcher: try to match the token list at the start of `cs`
(the character before the position being `prev`); return the number of
characters consumed by the leftmost-greedy match, if any. -/
def matchToks : List Tok → Option Char → Chars → Option ℕ
  | [], _, _ => some 0
  | t :: ts, prev, cs =>
      (t.alts prev cs).findSome? (fun k =>
        let prev2 := if k = 0 then prev else (cs.take k).getLast?
        (matchToks ts prev2 (cs.drop k)).map (fun n => k + n))

/-- `re.finditer`: scan left to right, at each position try the pattern, on a
match record the matched text and continue after it (the engine's patterns
never match the empty string).  `fuel` bounds the recursion and is always
supplied ample. -/
def finditerAux (p : List Tok) : ℕ → Option Char → Chars → List Chars
  | 0, _, _ => []
  | _ + 1, _, [] => []
  | fuel + 1, prev, c :: rest =>
      match matchToks p prev (c :: rest) with
      | some (n + 1) =>
          (c :: rest).take (n + 1) ::
            finditerAux p fuel (((c :: rest).take (n + 1)).getLast?) ((c :: rest).drop (n + 1))
      | _ => finditerAux p fuel (some c) rest

/-- All matches of a pattern in a text, in order. -/
def finditer (p : List Tok) (cs : Chars) : List Chars :=
  finditerAux p (cs.length + 1) none cs

/-- `re.search` as a Boolean: does the pattern match anywhere? -/
def reSearch (p : List Tok) (cs : Chars) : Bool :=
  ¬ (finditer p cs).isEmpty

/-- A run of literal characters. -/
def lits (s : String) : List Tok := s.data.map Tok.lit

/-- Literal words separated by `\s+`. -/
def reWords (ss : List String) : List Tok :=
  List.intercalate [Tok.wsPlus] (ss.map lits)

/-! ### Data model (`src/models.py`) -/

/-- `SeverityLevel` from `src/models.py`. -/
inductive SeverityLevel where
  | low
  | medium
  | high
  | critical
deriving DecidableEq

/-- The `.value` string of a severity level. -/
def SeverityLevel.value : SeverityLevel → Chars
  | .low => str "Low"
  | .medium => str "Medium"
  | .high => str "High"
  | .critical => str "Critical"

/-- `DocumentType` from `src/models.py`. -/
inductive DocumentType where
  | articles_of_association
  | memorandum_of_association
  | incorporation_application
  | ubo_declaration
  | board_resolution
  | register_members_directors
  | shareholder_resolution
  | change_address_notice
  | employment_contract
  | commercial_agreement
  | compliance_policy
  | other
deriving DecidableEq

/-- The `.value` string of a document type. -/
def DocumentType.value : DocumentType → Chars
  | .articles_of_association => str "Articles of Association"
  | .memorandum_of_association => str "Memorandum of Association"
  | .incorporation_application => str "Incorporation Application Form"
  | .ubo_declaration => str "UBO Declaration Form"
  | .board_resolution => str "Board Resolution Templates"
  | .register_members_directors => str "Register of Members and Directors"
  | .shareholder_resolution => str "Shareholder Resolution Templates"
  | .change_address_notice => str "Change of Registered Address Notice"
  | .employment_contract => str "Employment Contract"
  | .commercial_agreement => str "Commercial Agreement"
  | .compliance_policy => str "Compliance Policy"
  | .other => str "Other"

/-- `ProcessType` from `src/models.py`. -/
inductive ProcessType where
  | company_incorporation
  | license_application
  | employment_setup
  | commercial_agreement
  | compliance_filing
  | other
deriving DecidableEq

/-- The `.value` string of a process type. -/
def ProcessType.value : ProcessType → Chars
  | .company_incorporation => str "Company Incorporation"
  | .license_application => str "License Application"
  | .employment_setup => str "Employment Setup"
  | .commercial_agreement => str "Commercial Agreement"
  | .compliance_filing => str "Compliance Filing"
  | .other => str "Other"

/-- `DocumentIssue` from `src/models.py` (`sectionName` models the optional
`section` field; `section` is a Lean keyword). -/
structure DocumentIssue where
  document : Chars
  sectionName : Option Chars := none
  issue : Chars
  severity : SeverityLevel
  suggestion : Option Chars := none
  adgm_reference : Option Chars := none
  line_number : Option ℤ := none
deriving DecidableEq

/-! ### Jurisdiction check (`compliance_checker.py`, `_check_jurisdiction`) -/

/-- The five disallowed-jurisdiction patterns of `_check_jurisdiction`. -/
def incorrectJurisdictions : List (List Tok) :=
  [reWords ["uae", "federal"] ++ [Tok.wsPlus] ++ lits "court" ++ [Tok.optChar 's'],
   lits "dubai" ++ [Tok.wsPlus] ++ lits "court" ++ [Tok.optChar 's'],
   reWords ["abu", "dhabi"] ++ [Tok.wsPlus] ++ lits "court" ++
     [Tok.optChar 's', Tok.negLAGlobalMarket],
   lits "emirates" ++ [Tok.wsPlus] ++ lits "court" ++ [Tok.optChar 's'],
   lits "federal" ++ [Tok.wsPlus] ++ lits "court" ++ [Tok.optChar 's'] ++
     [Tok.wsPlus] ++ reWords ["of", "uae"]]

/-- The three allowed ADGM jurisdiction patterns of `_check_jurisdiction`. -/
def adgmJurisdictionPatterns : List (List Tok) :=
  [lits "adgm" ++ [Tok.wsPlus] ++ lits "court" ++ [Tok.optChar 's'],
   reWords ["abu", "dhabi", "global", "market"] ++ [Tok.wsPlus] ++ lits "court" ++
     [Tok.optChar 's'],
   lits "court" ++ [Tok.optChar 's', Tok.wsPlus] ++ reWords ["of", "adgm"]]

/-- Does an allowed ADGM jurisdiction phrase occur in the (lowercased) text? -/
def hasAdgmJurisdiction (text_lower : Chars) : Bool :=
  adgmJurisdictionPatterns.any (fun p => reSearch p text_lower)

/-- The fixed jurisdiction-sensitive document types of `_check_jurisdiction`. -/
def jurisdictionSensitiveTypes : List DocumentType :=
  [.articles_of_association, .memorandum_of_association, .commercial_agreement]

/-- The issue emitted for one match of a disallowed-jurisdiction phrase. -/
def mkIncorrectJurisdictionIssue (doc_type : DocumentType) (matched : Chars) :
    DocumentIssue where
  document := doc_type.value
  sectionName := some (str "Jurisdiction Clause")
  issue := str "Incorrect jurisdiction reference: " ++ [apos] ++ matched ++ [apos]
  severity := .high
  suggestion := some (str "Update jurisdiction to reference ADGM Courts")
  adgm_reference := some (str "ADGM Companies Regulations 2020, Article 6")

/-- The issue emitted when the ADGM jurisdiction clause is missing. -/
def missingAdgmIssue (doc_type : DocumentType) : DocumentIssue where
  document := doc_type.value
  sectionName := some (str "Jurisdiction Clause")
  issue := str "Missing ADGM jurisdiction clause"
  severity := .high
  suggestion := some (str "Add clause specifying ADGM Courts jurisdiction")
  adgm_reference := some (str "ADGM Companies Regulations 2020")

/-- `_check_jurisdiction`: one High issue per disallowed-phrase match, plus one
High missing-clause issue when no ADGM phrase occurs and the type is
jurisdiction-sensitive. -/
def check_jurisdiction (text : Chars) (doc_type : DocumentType) :
    List DocumentIssue :=
  let text_lower := toLowerStr text
  (incorrectJurisdictions.map
      (fun p => (finditer p text_lower).map (mkIncorrectJurisdictionIssue doc_type))).flatten ++
    (if ¬ hasAdgmJurisdiction text_lower ∧ doc_type ∈ jurisdictionSensitiveTypes then
      [missingAdgmIssue doc_type]
    else [])

/-! ### Red-flag check (`compliance_checker.py`, `_detect_red_flags`) -/

/-- The fixed ordered list of ambiguous-language patterns. -/
def ambiguousPatterns : List (List Tok) :=
  [[Tok.wordB] ++ lits "may" ++ [Tok.wsPlus, Tok.altStrs [str "be", str "have", str "do"]],
   [Tok.wordB] ++ lits "should" ++ [Tok.wsPlus, Tok.altStrs [str "be", str "have", str "do"]],
   [Tok.wordB] ++ lits "might" ++ [Tok.wsPlus, Tok.altStrs [str "be", str "have", str "do"]],
   [Tok.wordB] ++ lits "possibly",
   [Tok.wordB] ++ lits "perhaps",
   [Tok.wordB] ++ lits "if" ++ [Tok.wsPlus] ++ lits "possible"]

/-- The single Medium issue emitted by the ambiguous-language loop. -/
def ambiguousLanguageIssue (doc_type : DocumentType) : DocumentIssue where
  document := doc_type.value
  sectionName := some (str "Language Clarity")
  issue := str "Excessive use of ambiguous language"
  severity := .medium
  suggestion := some (str "Use definitive language (shall, will, must) instead of ambiguous terms")
  adgm_reference := some (str "ADGM Drafting Standards")

/-- The ambiguous-language loop: emit one issue for the first pattern with more
than 3 matches, then `break`. -/
def ambiguous_issues (text_lower : Chars) (doc_type : DocumentType) :
    List DocumentIssue :=
  match ambiguousPatterns.find? (fun p => 3 < (finditer p text_lower).length) with
  | some _ => [ambiguousLanguageIssue doc_type]
  | none => []

/-- The essential-information table for Articles of Association. -/
def essentialInfo : List (List Tok × Chars) :=
  [(reWords ["share", "capital"], str "Share capital information"),
   (reWords ["registered", "office"], str "Registered office address"),
   (lits "object" ++ [Tok.optChar 's', Tok.wsPlus] ++ reWords ["of", "the", "company"],
     str "Company objects")]

/-- The issue emitted for one missing essential-information term. -/
def essentialInfoIssue (doc_type : DocumentType) (info_name : Chars) :
    DocumentIssue where
  document := doc_type.value
  sectionName := some info_name
  issue := str "Missing " ++ toLowerStr info_name
  severity := .high
  suggestion := some (str "Include " ++ toLowerStr info_name ++ str " in the document")
  adgm_reference := some (str "ADGM Companies Regulations")

/-- The missing-essential-information part of `_detect_red_flags`. -/
def essential_issues (text_lower : Chars) (doc_type : DocumentType) :
    List DocumentIssue :=
  if doc_type = .articles_of_association then
    essentialInfo.filterMap (fun pn =>
      if reSearch pn.1 text_lower then none else some (essentialInfoIssue doc_type pn.2))
  else []

/-- The two date-format patterns of `_detect_red_flags`. -/
def datePatterns : List (List Tok) :=
  [[Tok.digits 1 2, Tok.lit '/', Tok.digits 1 2, Tok.lit '/', Tok.digits 2 4],
   [Tok.digits 1 2, Tok.lit '-', Tok.digits 1 2, Tok.lit '-', Tok.digits 2 4]]

/-- The single Low issue emitted by the date-format loop. -/
def dateFormatIssue (doc_type : DocumentType) : DocumentIssue where
  document := doc_type.value
  sectionName := some (str "Date Format")
  issue := str "Inconsistent date format detected"
  severity := .low
  suggestion := some (str "Use consistent date format (DD Month YYYY)")
  adgm_reference := some (str "ADGM Document Standards")

/-- The date-format loop: one issue for the first matching family, then `break`.
It searches the original (not lowercased) text. -/
def date_issues (text : Chars) (doc_type : DocumentType) : List DocumentIssue :=
  match datePatterns.find? (fun p => reSearch p text) with
  | some _ => [dateFormatIssue doc_type]
  | none => []

/-- `_detect_red_flags`: ambiguous language, then missing essential
information, then date format. -/
def detect_red_flags (text : Chars) (doc_type : DocumentType) :
    List DocumentIssue :=
  ambiguous_issues (toLowerStr text) doc_type ++
    essential_issues (toLowerStr text) doc_type ++ date_issues text doc_type

/-! ### Deduplication and scoring (`processing_engine.py`) -/

/-- Rendering of the optional section in the f-string signature
(`None` prints as `"None"`). -/
def sectionStr : Option Chars → Chars
  | none => str "None"
  | some s => s

/-- The f-string signature `f"{section}_{issue}_{severity}"` used as the
deduplication key by `_deduplicate_issues`. -/
def issueSignature (i : DocumentIssue) : Chars :=
  sectionStr i.sectionName ++ str "_" ++ i.issue ++ str "_" ++ i.severity.value

/-- The loop of `_deduplicate_issues`, with the `seen_issues` set as a list. -/
def deduplicate_issues_aux : List Chars → List DocumentIssue → List DocumentIssue
  | _, [] => []
  | seen, i :: rest =>
    if issueSignature i ∈ seen then deduplicate_issues_aux seen rest
    else i :: deduplicate_issues_aux (issueSignature i :: seen) rest

/-- `_deduplicate_issues`: keep the first occurrence of each signature. -/
def deduplicate_issues (issues : List DocumentIssue) : List DocumentIssue :=
  deduplicate_issues_aux [] issues

/-- Reference form of first-occurrence deduplication by signature: keep the
head, drop every later issue with the same signature, recurse. -/
def dedupBySignatureSpec : List DocumentIssue → List DocumentIssue
  | [] => []
  | i :: rest =>
      i :: dedupBySignatureSpec (rest.filter (fun j => issueSignature j ≠ issueSignature i))
termination_by l => l.length
decreasing_by
  simp only [List.length_cons]
  exact Nat.lt_succ_of_le (List.length_filter_le _ _)

/-- The severity weights of `_calculate_compliance_score`. -/
def severityWeight : SeverityLevel → ℚ
  | .low => 1
  | .medium => 3
  | .high => 7
  | .critical => 15

/-- The summed severity weights of an issue list. -/
def totalPenalty (issues : List DocumentIssue) : ℚ :=
  (issues.map (fun i => severityWeight i.severity)).sum

/-- Python `round(x, 1)` idealized over `ℚ`: round to one decimal place. -/
def roundTo1 (x : ℚ) : ℚ := (round (10 * x) : ℚ) / 10

/-- `_calculate_compliance_score`: 100 for no issues, otherwise
`max(0, 100 - Σ weights / max(word_count/100, 1))` rounded to one decimal. -/
def calculate_compliance_score (issues : List DocumentIssue) (word_count : ℕ) : ℚ :=
  if issues = [] then 100
  else
    let normalized_penalty := totalPenalty issues / max ((word_count : ℚ) / 100) 1
    roundTo1 (max 0 (100 - normalized_penalty))

/-! ### Rule-engine error flow (`compliance_checker.py` `check_compliance`,
`processing_engine.py` `_analyze_single_document`)

`check_compliance` runs the five checks in sequence with no per-check
exception handler, so a fault in any check propagates; here each check's
outcome is an explicit `Except` value and the straight-line control flow of
the Python body is the `Except` monad. -/

/-- `check_compliance` over the outcomes of its five checks (jurisdiction,
required clauses, formatting, red flags, ADGM-specific), in source order. -/
def check_compliance_sem
    (jurisdiction_res required_res formatting_res redflags_res adgm_res :
      Except Chars (List DocumentIssue)) : Except Chars (List DocumentIssue) := do
  let issues1 ← jurisdiction_res
  let issues2 ← required_res
  let issues3 ← formatting_res
  let issues4 ← redflags_res
  let issues5 ← adgm_res
  pure (issues1 ++ issues2 ++ issues3 ++ issues4 ++ issues5)

/-- The issue list and compliance score produced by `_analyze_single_document`
from the rule-engine outcome, the RAG issues and red flags, and the word count:
on success, deduplicate and score; on any exception, catch it and return an
empty issue list with score `0.0`. -/
def analyze_single_document (check_res : Except Chars (List DocumentIssue))
    (rag_issues red_flags : List DocumentIssue) (word_count : ℕ) :
    List DocumentIssue × ℚ :=
  match check_res with
  | .ok compliance_issues =>
      let unique := deduplicate_issues (compliance_issues ++ rag_issues ++ red_flags)
      (unique, calculate_compliance_score unique word_count)
  | .error _ => ([], 0)

/-! ### Checklist verification (`checklist_verifier.py`) -/

/-- `ADGM_PROCESS_REQUIREMENTS` from `src/config.py`. -/
def processRequirements : List (Chars × List Chars) :=
  [(str "Company Incorporation",
    [str "Articles of Association",
     str "Memorandum of Association",
     str "UBO Declaration Form",
     str "Register of Members and Directors",
     str "Board Resolution Templates"]),
   (str "License Application",
    [str "License Application Form",
     str "Business Plan",
     str "Financial Projections",
     str "Compliance Manual"])]

/-- `self.process_requirements.get(process_type.value, [])`. -/
def requiredDocsFor (process_type : ProcessType) : List Chars :=
  ((processRequirements.find? (fun kv => kv.1 = process_type.value)).map Prod.snd).getD []

/-- The `match_patterns` alias table of `_documents_match`, in insertion
order. -/
def matchPatterns : List (Chars × List Chars) :=
  [(str "articles of association",
    [str "articles", str "aoa", str "articles of association"]),
   (str "memorandum of association",
    [str "memorandum", str "moa", str "memorandum of association"]),
   (str "ubo declaration",
    [str "ubo", str "beneficial owner", str "ultimate beneficial owner"]),
   (str "board resolution",
    [str "board resolution", str "directors resolution", str "resolution"]),
   (str "register of members and directors",
    [str "register", str "members register", str "directors register"]),
   (str "shareholder resolution",
    [str "shareholder resolution", str "shareholders resolution"]),
   (str "employment contract",
    [str "employment", str "contract", str "employment agreement"]),
   (str "incorporation application",
    [str "incorporation", str "application", str "registration application"])]

/-- Python `str.strip()`. -/
def stripStr (cs : Chars) : Chars :=
  ((cs.dropWhile isWsPy).reverse.dropWhile isWsPy).reverse

/-- `_documents_match`: direct match after lowercasing/stripping; otherwise the
first alias-table key contained in the required name decides via its pattern
list; otherwise the (unreachable) exact-key lookup for the required name. -/
def documents_match (required_doc uploaded_doc : Chars) : Bool :=
  let required_lower := stripStr (toLowerStr required_doc)
  let uploaded_lower := stripStr (toLowerStr uploaded_doc)
  if required_lower = uploaded_lower then true
  else
    match matchPatterns.find? (fun kv => containsSub kv.1 required_lower) with
    | some kv => kv.2.any (fun p => containsSub p uploaded_lower)
    | none =>
        (((matchPatterns.find? (fun kv => kv.1 = required_lower)).map Prod.snd).getD []).any
          (fun p => containsSub p uploaded_lower)

/-- The dictionary returned by `verify_document_completeness`. -/
structure CompletenessInfo where
  process_type : Chars
  total_required : ℕ
  total_uploaded : ℕ
  total_present : ℕ
  completeness_percentage : ℚ
  missing_documents : List Chars
  present_documents : List Chars
  is_complete : Bool

/-- `verify_document_completeness`: walk the requirement list in order,
splitting it into present and missing documents, and compute the completeness
percentage (100 when nothing is required). -/
def verify_document_completeness (uploaded : List DocumentType)
    (process_type : ProcessType) : CompletenessInfo :=
  let required_docs := requiredDocsFor process_type
  let uploaded_doc_names := uploaded.map DocumentType.value
  let present_documents :=
    required_docs.filter (fun r => uploaded_doc_names.any (fun u => documents_match r u))
  let missing_documents :=
    required_docs.filter (fun r => ¬ uploaded_doc_names.any (fun u => documents_match r u))
  { process_type := process_type.value
    total_required := required_docs.length
    total_uploaded := uploaded.length
    total_present := present_documents.length
    completeness_percentage :=
      if 0 < required_docs.length then
        (present_documents.length : ℚ) / required_docs.length * 100
      else 100
    missing_documents := missing_documents
    present_documents := present_documents
    is_complete := missing_documents.length = 0 }

/-! ### Type classification (`document_parser.py`, `_identify_document_type`) -/

/-- The pattern table of `_create_type_patterns`, in insertion order. -/
def typePatterns : List (DocumentType × List (List Tok)) :=
  [(.articles_of_association,
    [lits "article" ++ [Tok.optChar 's', Tok.wsPlus] ++ reWords ["of", "association"],
     reWords ["company", "constitution"],
     reWords ["share", "capital"],
     lits "director" ++ [Tok.optChar 's', Tok.wsPlus] ++ lits "powers",
     reWords ["general"] ++ [Tok.wsPlus] ++ lits "meeting" ++ [Tok.optChar 's'],
     lits "dividend",
     reWords ["winding", "up"]]),
   (.memorandum_of_association,
    [reWords ["memorandum", "of", "association"],
     lits "object" ++ [Tok.optChar 's', Tok.wsPlus] ++ reWords ["of", "the", "company"],
     reWords ["liability", "of", "members"],
     reWords ["authorized", "share", "capital"],
     reWords ["company", "name"],
     reWords ["registered", "office"]]),
   (.incorporation_application,
    [reWords ["incorporation", "application"],
     reWords ["application", "for", "registration"],
     reWords ["company", "registration"],
     reWords ["proposed", "company", "name"],
     reWords ["nature", "of", "business"],
     reWords ["registered", "address"]]),
   (.ubo_declaration,
    [reWords ["ultimate", "beneficial", "owner"],
     reWords ["ubo", "declaration"],
     reWords ["beneficial", "ownership"],
     reWords ["controlling", "interest"],
     reWords ["ownership", "structure"],
     reWords ["25%", "or", "more"]]),
   (.board_resolution,
    [reWords ["board", "resolution"],
     lits "director" ++ [Tok.optChar 's', Tok.wsPlus] ++ lits "resolution",
     reWords ["resolved", "that"],
     reWords ["board", "of", "directors"],
     reWords ["meeting", "of", "directors"],
     reWords ["quorum", "present"]]),
   (.register_members_directors,
    [reWords ["register", "of", "members"],
     reWords ["register", "of", "directors"],
     lits "shareholder" ++ [Tok.optChar 's', Tok.wsPlus] ++ lits "register",
     lits "director" ++ [Tok.optChar 's', Tok.wsPlus] ++ lits "register",
     reWords ["member", "details"],
     reWords ["director", "details"]]),
   (.shareholder_resolution,
    [lits "shareholder" ++ [Tok.optChar 's', Tok.wsPlus] ++ lits "resolution",
     reWords ["general", "meeting"],
     reWords ["extraordinary", "general", "meeting"],
     reWords ["annual", "general", "meeting"],
     reWords ["special", "resolution"],
     reWords ["ordinary", "resolution"]]),
   (.change_address_notice,
    [reWords ["change", "of", "address"],
     reWords ["registered", "office", "address"],
     reWords ["new", "address"],
     reWords ["address", "change"],
     reWords ["relocation", "notice"],
     reWords ["office", "relocation"]]),
   (.employment_contract,
    [reWords ["employment", "contract"],
     reWords ["employment", "agreement"],
     reWords ["terms", "of", "employment"],
     reWords ["job", "description"],
     lits "salary",
     reWords ["working", "hours"],
     reWords ["notice", "period"]]),
   (.commercial_agreement,
    [reWords ["commercial", "agreement"],
     reWords ["service", "agreement"],
     reWords ["supply", "agreement"],
     reWords ["partnership", "agreement"],
     reWords ["terms", "and", "conditions"],
     reWords ["payment", "terms"]]),
   (.compliance_policy,
    [reWords ["compliance", "policy"],
     reWords ["risk", "management"],
     reWords ["data", "protection"],
     lits "anti" ++ [Tok.anyNotNl] ++ reWords ["money", "laundering"],
     reWords ["know", "your", "customer"],
     reWords ["regulatory", "compliance"]])]

/-- Number of patterns of one type that match the lowercased text. -/
def typeScoreNat (text_lower : Chars) (ps : List (List Tok)) : ℕ :=
  ps.countP (fun p => reSearch p text_lower)

/-- The per-type confidence scores (matched patterns / total patterns), in
pattern-table order. -/
def typeScores (text : Chars) : List (DocumentType × ℚ) :=
  let text_lower := toLowerStr text
  typePatterns.map (fun tp => (tp.1, (typeScoreNat text_lower tp.2 : ℚ) / tp.2.length))

/-- Python `max(d, key=d.get)` over an association list: the first entry whose
score no later entry strictly exceeds. -/
def firstArgmax {α : Type} : List (α × ℚ) → Option (α × ℚ)
  | [] => none
  | x :: xs =>
      match firstArgmax xs with
      | none => some x
      | some y => if y.2 > x.2 then some y else some x

/-- `_identify_document_type`: take the maximum-scoring type; accept it only
when the score reaches `0.3`, otherwise return `Other` with confidence `0.0`. -/
def identify_document_type (text : Chars) : DocumentType × ℚ :=
  match firstArgmax (typeScores text) with
  | some best => if 3 / 10 ≤ best.2 then best else (.other, 0)
  | none => (.other, 0)

/-! ### Annotation (`document_annotator.py`)

A docx document is modelled as an ordered list of paragraphs, a paragraph as
its list of runs, and a run as its text plus the formatting the annotator
sets (bold/italic, yellow highlight, font colour, font size in EMU). -/

/-- A docx run with the formatting attributes the annotator touches. -/
structure Run where
  text : Chars
  bold : Bool := false
  italic : Bool := false
  highlightYellow : Bool := false
  colorRGB : Option (ℕ × ℕ × ℕ) := none
  sizeEMU : Option ℕ := none
deriving DecidableEq

/-- A docx paragraph. -/
structure Paragraph where
  runs : List Run
  leftIndentEMU : Option ℕ := none
  rightIndentEMU : Option ℕ := none
deriving DecidableEq

/-- `paragraph.text`: the concatenated run texts. -/
def Paragraph.text (p : Paragraph) : Chars := (p.runs.map Run.text).flatten

/-- Python `list.insert(n, a)` (clamped to append past the end). -/
def insertAt {α : Type} (n : ℕ) (a : α) : List α → List α
  | [] => [a]
  | x :: xs =>
      match n with
      | 0 => a :: x :: xs
      | m + 1 => x :: insertAt m a xs

/-- Python `str.split()`: split on whitespace runs, dropping empty pieces. -/
def splitWsAux : Chars → Chars → List Chars
  | [], acc => if acc = [] then [] else [acc.reverse]
  | c :: rest, acc =>
      if isWsPy c then
        if acc = [] then splitWsAux rest [] else acc.reverse :: splitWsAux rest []
      else splitWsAux rest (c :: acc)

/-- Python `str.split()` with no arguments. -/
def splitWs (cs : Chars) : List Chars := splitWsAux cs []

/-- First-occurrence deduplication used to model Python `list(set(...))` (the
set's iteration order is unspecified; the engine only counts and scans these
keywords, so only membership matters). -/
def dedupCharsAux : List Chars → List Chars → List Chars
  | _, [] => []
  | seen, x :: xs =>
      if x ∈ seen then dedupCharsAux seen xs else x :: dedupCharsAux (x :: seen) xs

/-- Deduplicate a keyword list, keeping first occurrences. -/
def dedupChars (l : List Chars) : List Chars := dedupCharsAux [] l

/-- The `keyword_map` of `_extract_keywords_from_issue`, in insertion order. -/
def keywordMap : List (Chars × List Chars) :=
  [(str "jurisdiction",
    [str "jurisdiction", str "court", str "adgm", str "dubai", str "abu dhabi"]),
   (str "signature",
    [str "signature", str "signed", str "signatory", str "execution"]),
   (str "date", [str "date", str "dated", str "day of"]),
   (str "share capital", [str "share", str "capital", str "shares", str "authorized"]),
   (str "director", [str "director", str "board", str "directors"]),
   (str "member", [str "member", str "shareholder", str "membership"]),
   (str "company name", [str "company", str "name", str "corporation"]),
   (str "registered office", [str "registered", str "office", str "address"]),
   (str "objects", [str "objects", str "purpose", str "business", str "activities"])]

/-- `_extract_keywords_from_issue`: the terms of every category with a term
occurring in the issue text, plus the words of the section name, without
duplicates. -/
def extract_keywords_from_issue (issue : DocumentIssue) : List Chars :=
  let issue_text := toLowerStr issue.issue
  let base :=
    ((keywordMap.filter (fun kv => kv.2.any (fun t => containsSub t issue_text))).map
        Prod.snd).flatten
  let with_section := base ++
    (match issue.sectionName with
     | some s => splitWs (toLowerStr s)
     | none => [])
  dedupChars with_section

/-- `_find_best_paragraph`: first paragraph containing a section-name word, if
the issue names a section; otherwise the earliest paragraph with the maximal
positive keyword-hit count (no paragraph when every count is zero). -/
def find_best_paragraph (issue : DocumentIssue) (paragraphs : List Chars) :
    Option ℕ :=
  let section_hit : Option ℕ :=
    match issue.sectionName with
    | some s =>
        if s = [] then none
        else
          let section_keywords := splitWs (toLowerStr s)
          ((paragraphs.enum.find? (fun ip =>
              section_keywords.any (fun k => containsSub k (toLowerStr ip.2)))).map
            Prod.fst)
    | none => none
  match section_hit with
  | some i => some i
  | none =>
      let issue_keywords := extract_keywords_from_issue issue
      ((paragraphs.enum.foldl (fun best ip =>
            let score := issue_keywords.countP (fun k => containsSub k (toLowerStr ip.2))
            match best with
            | none => if 0 < score then some (ip.1, score) else none
            | some b => if b.2 < score then some (ip.1, score) else some b)
          none).map Prod.fst)

/-- `_extract_highlight_text`: for the first keyword contained in the
lowercased paragraph, the first case-insensitive occurrence in the original
paragraph text. -/
def extract_highlight_text (issue : DocumentIssue) (paragraph_text : Chars) :
    Option Chars :=
  (extract_keywords_from_issue issue).findSome? (fun keyword =>
    if containsSub keyword (toLowerStr paragraph_text) then
      match subIdx keyword (toLowerStr paragraph_text) with
      | some idx => some ((paragraph_text.drop idx).take keyword.length)
      | none => none
    else none)

/-- The severity-emoji table of `_format_comment`. -/
def severityEmoji : SeverityLevel → Chars
  | .low => str "🟡"
  | .medium => str "🟠"
  | .high => str "🔴"
  | .critical => str "🚨"

/-- `_format_comment`: severity banner, issue, optional suggestion and
reference, joined with newlines. -/
def format_comment (issue : DocumentIssue) : Chars :=
  List.intercalate (str "\n")
    ([severityEmoji issue.severity ++ str " " ++ toUpperStr issue.severity.value ++
        str " ISSUE",
      str "Issue: " ++ issue.issue] ++
     (match issue.suggestion with
      | some s => if s = [] then [] else [str "Suggestion: " ++ s]
      | none => []) ++
     (match issue.adgm_reference with
      | some r => if r = [] then [] else [str "Reference: " ++ r]
      | none => []))

/-- `_get_comment_type`. -/
def get_comment_type (issue : DocumentIssue) : Chars :=
  if issue.severity = .high ∨ issue.severity = .critical then str "critical"
  else if issue.severity = .medium then str "warning"
  else str "info"

/-- `CommentInsertion` from `src/models.py`. -/
structure CommentInsertion where
  paragraph_index : ℕ
  comment_text : Chars
  highlight_text : Option Chars
  comment_type : Chars
deriving DecidableEq

/-- `_create_comment_insertions`: one insertion per issue for which a target
paragraph is found, in issue order. -/
def create_comment_insertions (issues : List DocumentIssue)
    (paragraphs : List Chars) : List CommentInsertion :=
  issues.filterMap (fun issue =>
    match find_best_paragraph issue paragraphs with
    | some paragraph_index =>
        some { paragraph_index := paragraph_index
               comment_text := format_comment issue
               highlight_text :=
                 extract_highlight_text issue (paragraphs.getD paragraph_index [])
               comment_type := get_comment_type issue }
    | none => none)

/-- `_highlight_text_in_paragraph`: split the paragraph text at the first
case-insensitive occurrence of the highlight text into before/match/after
runs, marking the match with a yellow highlight. -/
def highlight_text_in_paragraph (p : Paragraph) (highlight_text : Chars) :
    Paragraph :=
  let paragraph_text := p.text
  if containsSub (toLowerStr highlight_text) (toLowerStr paragraph_text) then
    match subIdx (toLowerStr highlight_text) (toLowerStr paragraph_text) with
    | some start_index =>
        let original_text := paragraph_text
        { p with runs :=
            (if 0 < start_index then [{ text := original_text.take start_index }] else []) ++
            [{ text := (original_text.drop start_index).take highlight_text.length,
               highlightYellow := true }] ++
            (if start_index + highlight_text.length < original_text.length then
              [{ text := original_text.drop (start_index + highlight_text.length) }]
            else []) }
    | none => p
  else p

/-- `_format_comment_paragraph`: the comment paragraph, styled by type. -/
def format_comment_paragraph (insertion : CommentInsertion) : Paragraph where
  runs :=
    [{ text := str "[ADGM REVIEW] " ++ insertion.comment_text
       bold := insertion.comment_type = str "critical" ∨
         insertion.comment_type = str "warning"
       italic := true
       colorRGB :=
         some (if insertion.comment_type = str "critical" then (204, 0, 0)
           else if insertion.comment_type = str "warning" then (255, 102, 0)
           else (0, 102, 204))
       sizeEMU := some 91440 }]
  leftIndentEMU := some 457200
  rightIndentEMU := some 457200

/-- `_insert_comment`: when the target index is in range, highlight the target
paragraph (if a nonempty highlight text was chosen) and insert the comment
paragraph immediately after it. -/
def insert_comment (doc : List Paragraph) (insertion : CommentInsertion) :
    List Paragraph :=
  if insertion.paragraph_index < doc.length then
    let doc1 :=
      match insertion.highlight_text with
      | some ht =>
          if ht = [] then doc
          else
            doc.set insertion.paragraph_index
              (highlight_text_in_paragraph
                (doc.getD insertion.paragraph_index { runs := [] }) ht)
      | none => doc
    insertAt (insertion.paragraph_index + 1) (format_comment_paragraph insertion) doc1
  else doc

/-- `0..9` digits of a natural number, Python `f"{n}"`. -/
def natRepr (n : ℕ) : Chars := (Nat.repr n).data

/-- The fixed severity order of the summary breakdown. -/
def severityOrder : List SeverityLevel := [.critical, .high, .medium, .low]

/-- The severity-breakdown emoji table of `_create_summary_content`. -/
def severityBreakdownEmoji : SeverityLevel → Chars
  | .critical => str "🚨"
  | .high => str "🔴"
  | .medium => str "🟠"
  | .low => str "🟡"

/-- `_create_summary_content`: the summary lines in presentation order (total,
per-severity counts for Critical/High/Medium/Low, the first five issues, a
"more" line when truncated, closing hint), or the single affirmative line when
there are no issues. -/
def create_summary_content (issues : List DocumentIssue) : List Chars :=
  if issues = [] then
    [str "✅ No compliance issues found. Document appears to be compliant with ADGM requirements."]
  else
    let severity_lines := severityOrder.filterMap (fun sv =>
      let count := issues.countP (fun i => i.severity = sv)
      if 0 < count then
        some (severityBreakdownEmoji sv ++ str " " ++ sv.value ++ str ": " ++
          natRepr count ++ str " issue(s)")
      else none)
    [str "📊 Total Issues Found: " ++ natRepr issues.length, str ""] ++
      severity_lines ++
      [str "", str "📝 Key Issues:"] ++
      (issues.take 5).enum.map (fun ii => natRepr (ii.1 + 1) ++ str ". " ++ ii.2.issue) ++
      (if 5 < issues.length then
        [str "... and " ++ natRepr (issues.length - 5) ++ str " more issue(s)"]
      else []) ++
      [str "",
       str "💡 Please review the detailed comments throughout the document for specific guidance.",
       str ""]

/-- The title paragraph inserted before the document's first paragraph. -/
def titleParagraph : Paragraph where
  runs := [{ text := str "ADGM COMPLIANCE REVIEW SUMMARY", bold := true,
             colorRGB := some (0, 51, 102), sizeEMU := some 137160 }]

/-- `_add_summary_section`: insert the title paragraph before the document's
first paragraph (`insert_paragraph_before`, a real python-docx API) and add
its styled run; `_create_summary_content` is then computed (it is pure), but
the loop's first call to `summary_paragraph.insert_paragraph_after()` raises
`AttributeError` — python-docx's `Paragraph` has no such method, which is why
this same file hand-rolls `_insert_paragraph_after` at the XML level for
comments — and the enclosing `except` swallows it.  The content list is never
empty (both branches of `_create_summary_content` produce at least one line),
so the loop always faults on its first iteration: no content line and no
separator is ever inserted, and only the bare title ends up prepended.  On an
empty document `doc.paragraphs[0]` raises first and the handler returns the
document unchanged. -/
def add_summary_section (doc : List Paragraph) (_issues : List DocumentIssue) :
    List Paragraph :=
  match doc with
  | [] => doc
  | _ => titleParagraph :: doc

/-- `annotate_document`: compute the comment insertions against the original
paragraph list, apply them in descending target order (Python's stable
`sort(reverse=True)`), then run the summary step (which, per
`add_summary_section`, only prepends the title before faulting). -/
def annotate_document (doc : List Paragraph) (issues : List DocumentIssue) :
    List Paragraph :=
  let paragraphs := doc.map Paragraph.text
  let comment_insertions := create_comment_insertions issues paragraphs
  let sorted_insertions :=
    comment_insertions.mergeSort (fun a b => b.paragraph_index ≤ a.paragraph_index)
  let doc2 := sorted_insertions.foldl insert_comment doc
  add_summary_section doc2 issues

/-! ### Concrete inputs used by the theorems below -/

/-- Scenario A text: a disallowed jurisdiction and no ADGM phrase. -/
def scenarioAText : Chars := str "This agreement is governed by Dubai Courts."

/-- Scenario D text: four matches of the `may`-pattern, two of `perhaps`. -/
def scenarioDText : Chars :=
  str "The company may be liable for damages. Payment may be required monthly. Notice may be given early. The term may be extended. Perhaps renewal. Perhaps not."

/-- A text on which Memorandum of Association and Board Resolution tie at
score `2/6 = 1/3 ≥ 0.3`. -/
def tieText : Chars :=
  str "memorandum of association objects of the company board resolution resolved that"

/-- First of two distinct (section, issue, severity) triples whose
`f"{section}_{issue}_{severity}"` signatures collide. -/
def collideIssueA : DocumentIssue where
  document := str "doc"
  sectionName := some (str "a_b")
  issue := str "c"
  severity := .low

/-- Second colliding issue: a different triple, the same signature
`"a_b_c_Low"`. -/
def collideIssueB : DocumentIssue where
  document := str "doc"
  sectionName := some (str "a")
  issue := str "b_c"
  severity := .low

/-- A sample issue produced by a successful check. -/
def sampleOkIssue : DocumentIssue := missingAdgmIssue .articles_of_association

/-- A one-paragraph document for the summary-order evaluation. -/
def summaryDemoDoc : List Paragraph :=
  [{ runs := [{ text := str "Company details follow." }] }]

/-! ## Helper lemmas -/

theorem severityWeight_nonneg (s : SeverityLevel) : 0 ≤ severityWeight s := by
  cases s <;> norm_num [severityWeight]

theorem totalPenalty_nonneg (issues : List DocumentIssue) :
    0 ≤ totalPenalty issues := by
  refine List.sum_nonneg ?_
  intro x hx
  obtain ⟨i, _, rfl⟩ := List.mem_map.mp hx
  exact severityWeight_nonneg _

theorem roundTo1_mono {x y : ℚ} (h : x ≤ y) : roundTo1 x ≤ roundTo1 y := by
  unfold roundTo1
  have hr : round (10 * x) ≤ round (10 * y) := by
    rw [round_eq, round_eq]
    exact Int.floor_le_floor (by linarith)
  have hc : ((round (10 * x) : ℤ) : ℚ) ≤ ((round (10 * y) : ℤ) : ℚ) :=
    Int.cast_le.mpr hr
  linarith

theorem roundTo1_hundred : roundTo1 100 = 100 := by
  have h : (10 : ℚ) * 100 = ((1000 : ℤ) : ℚ) := by norm_num
  rw [roundTo1, h, round_intCast]
  norm_num

theorem roundTo1_zero : roundTo1 0 = 0 := by
  have h : (10 : ℚ) * 0 = ((0 : ℤ) : ℚ) := by norm_num
  rw [roundTo1, h, round_intCast]
  norm_num

theorem chars_ne_of_head_ne {a b : Chars} (h : a.head? ≠ b.head?) : a ≠ b :=
  fun e => h (congrArg List.head? e)

/-! ## C1 -/

/-- C1: for every issue list and word count, the per-document compliance score
equals `max(0, 100 − Σ severity weights / max(word_count/100, 1))` with the
weights Low 1, Medium 3, High 7, Critical 15, rounded to one decimal place;
consequently the score always lies in `[0, 100]`. -/
theorem C1_compliance_score_formula_and_range (issues : List DocumentIssue)
    (word_count : ℕ) :
    calculate_compliance_score issues word_count
        = roundTo1 (max 0 (100 - totalPenalty issues / max ((word_count : ℚ) / 100) 1)) ∧
      0 ≤ calculate_compliance_score issues word_count ∧
      calculate_compliance_score issues word_count ≤ 100 := by
  have hden : (1 : ℚ) ≤ max ((word_count : ℚ) / 100) 1 := le_max_right _ _
  have hden0 : (0 : ℚ) < max ((word_count : ℚ) / 100) 1 := lt_of_lt_of_le one_pos hden
  have hpen : 0 ≤ totalPenalty issues / max ((word_count : ℚ) / 100) 1 :=
    div_nonneg (totalPenalty_nonneg issues) (le_of_lt hden0)
  have hlo : (0 : ℚ) ≤ max 0 (100 - totalPenalty issues / max ((word_count : ℚ) / 100) 1) :=
    le_max_left _ _
  have hhi : max 0 (100 - totalPenalty issues / max ((word_count : ℚ) / 100) 1) ≤ 100 := by
    apply max_le <;> linarith
  have heq : calculate_compliance_score issues word_count
      = roundTo1 (max 0 (100 - totalPenalty issues / max ((word_count : ℚ) / 100) 1)) := by
    by_cases h : issues = []
    · subst h
      have hp : totalPenalty ([] : List DocumentIssue) = 0 := rfl
      simp only [calculate_compliance_score, if_pos rfl, hp, zero_div, sub_zero]
      rw [show max (0 : ℚ) 100 = 100 from max_eq_right (by norm_num), roundTo1_hundred]
      simp
    · simp only [calculate_compliance_score, if_neg h]
  refine ⟨heq, ?_, ?_⟩
  · rw [heq]
    have := roundTo1_mono hlo
    rwa [roundTo1_zero] at this
  · rw [heq]
    have := roundTo1_mono hhi
    rwa [roundTo1_hundred] at this

/-! ## C2 -/

theorem dedup_aux_eq_spec (l : List DocumentIssue) (seen : List Chars) :
    deduplicate_issues_aux seen l
      = dedupBySignatureSpec (l.filter (fun i => issueSignature i ∉ seen)) := by
  induction l generalizing seen with
  | nil => simp [deduplicate_issues_aux, dedupBySignatureSpec]
  | cons i rest ih =>
    by_cases h : issueSignature i ∈ seen
    · rw [deduplicate_issues_aux, if_pos h, ih]
      congr 1
      simp [List.filter_cons, h]
    · rw [deduplicate_issues_aux, if_neg h, ih]
      have hfil : (i :: rest).filter (fun j => issueSignature j ∉ seen)
          = i :: rest.filter (fun j => issueSignature j ∉ seen) := by
        simp [List.filter_cons, h]
      rw [hfil, dedupBySignatureSpec]
      have hff : rest.filter (fun j => issueSignature j ∉ issueSignature i :: seen)
          = (rest.filter (fun j => issueSignature j ∉ seen)).filter
              (fun j => issueSignature j ≠ issueSignature i) := by
        rw [List.filter_filter]
        apply List.filter_congr
        intro a _
        by_cases h1 : issueSignature a = issueSignature i <;>
          by_cases h2 : issueSignature a ∈ seen <;>
          simp [h1, h2]
      rw [hff]

theorem dedupSpec_sublist (l : List DocumentIssue) :
    List.Sublist (dedupBySignatureSpec l) l := by
  induction l using dedupBySignatureSpec.induct with
  | case1 => simp [dedupBySignatureSpec]
  | case2 i rest ih =>
    rw [dedupBySignatureSpec]
    exact (ih.trans (List.filter_sublist _)).cons₂ i

theorem dedupSpec_sig_pairwise (l : List DocumentIssue) :
    (dedupBySignatureSpec l).Pairwise
      (fun a b => issueSignature a ≠ issueSignature b) := by
  induction l using dedupBySignatureSpec.induct with
  | case1 => simp [dedupBySignatureSpec]
  | case2 i rest ih =>
    rw [dedupBySignatureSpec]
    refine List.Pairwise.cons ?_ ih
    intro b hb
    have hb' : b ∈ rest.filter (fun j => issueSignature j ≠ issueSignature i) :=
      (dedupSpec_sublist _).mem hb
    have hbp := List.of_mem_filter hb'
    intro e
    simp only [decide_not, Bool.not_eq_true', decide_eq_false_iff_not] at hbp
    exact hbp e.symm

theorem dedupSpec_sig_complete (l : List DocumentIssue) :
    ∀ i ∈ l, ∃ j ∈ dedupBySignatureSpec l, issueSignature j = issueSignature i := by
  induction l using dedupBySignatureSpec.induct with
  | case1 => simp
  | case2 x rest ih =>
    intro i hi
    rw [dedupBySignatureSpec]
    rcases List.mem_cons.mp hi with rfl | hm
    · exact ⟨i, List.mem_cons_self _ _, rfl⟩
    · by_cases he : issueSignature i = issueSignature x
      · exact ⟨x, List.mem_cons_self _ _, he.symm⟩
      · have hmem : i ∈ rest.filter (fun j => issueSignature j ≠ issueSignature x) :=
          List.mem_filter.mpr ⟨hm, by simpa using he⟩
        obtain ⟨j, hj, hsig⟩ := ih i hmem
        exact ⟨j, List.mem_cons_of_mem _ hj, hsig⟩

theorem dedupSpec_of_sig_pairwise (l : List DocumentIssue)
    (h : l.Pairwise (fun a b => issueSignature a ≠ issueSignature b)) :
    dedupBySignatureSpec l = l := by
  induction l with
  | nil => simp [dedupBySignatureSpec]
  | cons x rest ih =>
    rw [dedupBySignatureSpec]
    rw [List.pairwise_cons] at h
    have hfil : rest.filter (fun j => issueSignature j ≠ issueSignature x) = rest := by
      apply List.filter_eq_self.mpr
      intro a ha
      simpa using fun e => (h.1 a ha) e.symm
    rw [hfil, ih h.2]

theorem deduplicate_eq_spec (l : List DocumentIssue) :
    deduplicate_issues l = dedupBySignatureSpec l := by
  rw [deduplicate_issues, dedup_aux_eq_spec]
  congr 1
  apply List.filter_eq_self.mpr
  intro a _
  simp

/-- C2 counterexample: two issues with *distinct* (section, issue text,
severity) triples whose `f"{section}_{issue}_{severity}"` signatures coincide
(`"a_b" / "c"` versus `"a" / "b_c"`, both giving `"a_b_c_Low"`): deduplication
drops the second issue, so it does not return the first occurrence of every
distinct triple. -/
theorem C2_counterexample_signature_collision :
    deduplicate_issues [collideIssueA, collideIssueB] = [collideIssueA] ∧
      (collideIssueA.sectionName, collideIssueA.issue, collideIssueA.severity)
        ≠ (collideIssueB.sectionName, collideIssueB.issue, collideIssueB.severity) := by
  constructor
  · decide
  · decide

/-- C2 (amended): deduplication keeps the first occurrence of each
*concatenated signature string* `f"{section}_{issue}_{severity}"` — not of
each (section, issue, severity) triple — in original order: it equals the
reference first-occurrence-by-signature function, is a sublist of the input,
leaves signatures (hence also the triples) pairwise distinct, retains a
representative of every input signature, and is idempotent. -/
theorem C2_dedup_first_occurrence_by_signature (l : List DocumentIssue) :
    deduplicate_issues l = dedupBySignatureSpec l ∧
      List.Sublist (deduplicate_issues l) l ∧
      (deduplicate_issues l).Pairwise
        (fun a b => issueSignature a ≠ issueSignature b) ∧
      (deduplicate_issues l).Pairwise
        (fun a b => ¬ (a.sectionName = b.sectionName ∧ a.issue = b.issue ∧
          a.severity = b.severity)) ∧
      (∀ i ∈ l, ∃ j ∈ deduplicate_issues l, issueSignature j = issueSignature i) ∧
      deduplicate_issues (deduplicate_issues l) = deduplicate_issues l := by
  have heq := deduplicate_eq_spec l
  have hpw := dedupSpec_sig_pairwise l
  refine ⟨heq, ?_, ?_, ?_, ?_, ?_⟩
  · rw [heq]; exact dedupSpec_sublist l
  · rw [heq]; exact hpw
  · rw [heq]
    refine hpw.imp ?_
    intro a b hab ⟨h1, h2, h3⟩
    exact hab (by rw [issueSignature, issueSignature, h1, h2, h3])
  · rw [heq]; exact dedupSpec_sig_complete l
  · rw [heq, deduplicate_eq_spec, dedupSpec_of_sig_pairwise _ hpw]

/-! ## C3 -/

theorem mkIncorrect_issue_head (dt : DocumentType) (m : Chars) :
    (mkIncorrectJurisdictionIssue dt m).issue.head? = some 'I' := rfl

theorem mkIncorrect_issue_ne_missing (dt : DocumentType) (m : Chars) :
    (mkIncorrectJurisdictionIssue dt m).issue ≠ str "Missing ADGM jurisdiction clause" := by
  apply chars_ne_of_head_ne
  rw [mkIncorrect_issue_head]
  decide

set_option maxRecDepth 8000 in
/-- C3: the jurisdiction check emits one High issue per match of a
disallowed-jurisdiction phrase and exactly one additional High
"Missing ADGM jurisdiction clause" issue iff no ADGM jurisdiction phrase is
present and the type is jurisdiction-sensitive; every emitted issue is High,
the total count is the sum of the per-pattern match counts plus the optional
missing-clause issue, and the scenario-A text ("Dubai Courts", no ADGM phrase,
Articles of Association) yields at least one High issue. -/
theorem C3_jurisdiction_check (text : Chars) (doc_type : DocumentType) :
    (∀ i ∈ check_jurisdiction text doc_type, i.severity = .high) ∧
      ((check_jurisdiction text doc_type).countP
          (fun i => i.issue = str "Missing ADGM jurisdiction clause")
        = if ¬ hasAdgmJurisdiction (toLowerStr text) ∧
              doc_type ∈ jurisdictionSensitiveTypes then 1 else 0) ∧
      ((check_jurisdiction text doc_type).length
        = (incorrectJurisdictions.map
              (fun p => (finditer p (toLowerStr text)).length)).sum
            + if ¬ hasAdgmJurisdiction (toLowerStr text) ∧
                doc_type ∈ jurisdictionSensitiveTypes then 1 else 0) ∧
      1 ≤ (check_jurisdiction scenarioAText .articles_of_association).countP
            (fun i => i.severity = .high) := by
  refine ⟨?_, ?_, ?_, ?_⟩
  · intro i hi
    simp only [check_jurisdiction, List.mem_append] at hi
    rcases hi with hi | hi
    · rw [List.mem_flatten] at hi
      obtain ⟨l, hl, hil⟩ := hi
      rw [List.mem_map] at hl
      obtain ⟨p, _, rfl⟩ := hl
      rw [List.mem_map] at hil
      obtain ⟨m, _, rfl⟩ := hil
      rfl
    · by_cases hc : ¬ hasAdgmJurisdiction (toLowerStr text) ∧
          doc_type ∈ jurisdictionSensitiveTypes
      · rw [if_pos hc, List.mem_singleton] at hi
        subst hi
        rfl
      · rw [if_neg hc] at hi
        exact absurd hi (List.not_mem_nil i)
  · simp only [check_jurisdiction]
    rw [List.countP_append]
    have h1 : ((incorrectJurisdictions.map
        (fun p => (finditer p (toLowerStr text)).map
          (mkIncorrectJurisdictionIssue doc_type))).flatten).countP
        (fun i => i.issue = str "Missing ADGM jurisdiction clause") = 0 := by
      rw [List.countP_eq_zero]
      intro a ha
      rw [List.mem_flatten] at ha
      obtain ⟨l, hl, hal⟩ := ha
      rw [List.mem_map] at hl
      obtain ⟨p, _, rfl⟩ := hl
      rw [List.mem_map] at hal
      obtain ⟨m, _, rfl⟩ := hal
      simpa using mkIncorrect_issue_ne_missing doc_type m
    rw [h1]
    by_cases hc : ¬ hasAdgmJurisdiction (toLowerStr text) ∧
        doc_type ∈ jurisdictionSensitiveTypes
    · rw [if_pos hc, if_pos hc]
      have hm : (missingAdgmIssue doc_type).issue
          = str "Missing ADGM jurisdiction clause" := rfl
      simp [hm]
    · rw [if_neg hc, if_neg hc]
      simp
  · simp only [check_jurisdiction, List.length_append]
    congr 1
    · rw [List.length_flatten, List.map_map]
      congr 1
      apply List.map_congr_left
      intro p _
      simp
    · by_cases hc : ¬ hasAdgmJurisdiction (toLowerStr text) ∧
          doc_type ∈ jurisdictionSensitiveTypes
      · rw [if_pos hc, if_pos hc]
        rfl
      · rw [if_neg hc, if_neg hc]
        rfl
  · decide

/-! ## C4 -/

theorem essentialIssue_ne_ambiguous (dt : DocumentType) (nm : Chars) :
    (essentialInfoIssue dt nm).issue ≠ str "Excessive use of ambiguous language" := by
  apply chars_ne_of_head_ne
  have h : (essentialInfoIssue dt nm).issue.head? = some 'M' := rfl
  rw [h]
  decide

theorem dateIssue_ne_ambiguous (dt : DocumentType) :
    (dateFormatIssue dt).issue ≠ str "Excessive use of ambiguous language" := by
  apply chars_ne_of_head_ne
  have h : (dateFormatIssue dt).issue.head? = some 'I' := rfl
  rw [h]
  decide

theorem ambiguous_issues_countP (tl : Chars) (dt : DocumentType) :
    (ambiguous_issues tl dt).countP
        (fun i => i.issue = str "Excessive use of ambiguous language")
      = if ambiguousPatterns.any (fun p => 3 < (finditer p tl).length) then 1
        else 0 := by
  rw [ambiguous_issues]
  cases hf : ambiguousPatterns.find? (fun p => 3 < (finditer p tl).length) with
  | none =>
      have ha : ambiguousPatterns.any (fun p => 3 < (finditer p tl).length) = false := by
        rw [List.any_eq_false]
        intro q hq
        simpa using List.find?_eq_none.mp hf q hq
      simp [ha]
  | some q =>
      have hq := List.find?_some hf
      have ha : ambiguousPatterns.any (fun p => 3 < (finditer p tl).length) = true :=
        List.any_eq_true.mpr ⟨q, List.mem_of_find?_eq_some hf, hq⟩
      have he : (ambiguousLanguageIssue dt).issue
          = str "Excessive use of ambiguous language" := rfl
      simp [ha, he]

theorem essential_issues_countP_amb (tl : Chars) (dt : DocumentType) :
    (essential_issues tl dt).countP
        (fun i => i.issue = str "Excessive use of ambiguous language") = 0 := by
  rw [List.countP_eq_zero]
  intro a ha
  rw [essential_issues] at ha
  by_cases hdt : dt = .articles_of_association
  · rw [if_pos hdt] at ha
    rw [List.mem_filterMap] at ha
    obtain ⟨pn, _, hval⟩ := ha
    by_cases hr : reSearch pn.1 tl = true
    · rw [if_pos hr] at hval
      cases hval
    · rw [if_neg hr] at hval
      have hae := Option.some.inj hval
      rw [← hae]
      simpa using essentialIssue_ne_ambiguous dt pn.2
  · rw [if_neg hdt] at ha
    exact absurd ha (List.not_mem_nil a)

theorem date_issues_countP_amb (text : Chars) (dt : DocumentType) :
    (date_issues text dt).countP
        (fun i => i.issue = str "Excessive use of ambiguous language") = 0 := by
  rw [date_issues]
  cases hf : datePatterns.find? (fun p => reSearch p text) with
  | none => rfl
  | some p =>
      have := dateIssue_ne_ambiguous dt
      simp [this]

set_option maxRecDepth 8000 in
/-- C4: the ambiguous-language red-flag check emits exactly one issue — the
Medium "Excessive use of ambiguous language" issue — when some pattern of its
fixed ordered list has more than 3 matches (the loop stops at the first such
pattern, so never more than one issue), and none otherwise; in particular the
scenario-D text with four matches of the `may` pattern and two of `perhaps`
yields exactly one ambiguous-language issue. -/
theorem C4_ambiguous_language_single_issue (text : Chars) (doc_type : DocumentType) :
    ((detect_red_flags text doc_type).countP
        (fun i => i.issue = str "Excessive use of ambiguous language")
      = if ambiguousPatterns.any
            (fun p => 3 < (finditer p (toLowerStr text)).length) then 1 else 0) ∧
      (∀ i ∈ detect_red_flags text doc_type,
        i.issue = str "Excessive use of ambiguous language" → i.severity = .medium) ∧
      (detect_red_flags scenarioDText .commercial_agreement).countP
          (fun i => i.issue = str "Excessive use of ambiguous language") = 1 := by
  refine ⟨?_, ?_, ?_⟩
  · rw [detect_red_flags, List.countP_append, List.countP_append,
      ambiguous_issues_countP, essential_issues_countP_amb, date_issues_countP_amb]
    omega
  · intro i hi he
    rw [detect_red_flags, List.mem_append, List.mem_append] at hi
    rcases hi with (hi | hi) | hi
    · rw [ambiguous_issues] at hi
      cases hf : ambiguousPatterns.find?
          (fun p => 3 < (finditer p (toLowerStr text)).length) with
      | none => rw [hf] at hi; exact absurd hi (List.not_mem_nil i)
      | some p =>
          rw [hf, List.mem_singleton] at hi
          subst hi
          rfl
    · exfalso
      rw [essential_issues] at hi
      by_cases hdt : doc_type = .articles_of_association
      · rw [if_pos hdt] at hi
        rw [List.mem_filterMap] at hi
        obtain ⟨pn, _, hval⟩ := hi
        by_cases hr : reSearch pn.1 (toLowerStr text) = true
        · rw [if_pos hr] at hval
          cases hval
        · rw [if_neg hr] at hval
          have hae := Option.some.inj hval
          rw [← hae] at he
          exact essentialIssue_ne_ambiguous doc_type pn.2 he
      · rw [if_neg hdt] at hi
        exact absurd hi (List.not_mem_nil i)
    · exfalso
      rw [date_issues] at hi
      cases hf : datePatterns.find? (fun p => reSearch p text) with
      | none => rw [hf] at hi; exact absurd hi (List.not_mem_nil i)
      | some p =>
          rw [hf, List.mem_singleton] at hi
          subst hi
          exact dateIssue_ne_ambiguous doc_type he
  · decide

/-! ## C5 -/

theorem verify_missing_eq_filter (uploaded : List DocumentType)
    (process_type : ProcessType) :
    (verify_document_completeness uploaded process_type).missing_documents
      = (requiredDocsFor process_type).filter
          (fun d =>
            d ∉ (verify_document_completeness uploaded process_type).present_documents) := by
  simp only [verify_document_completeness]
  apply List.filter_congr
  intro a ha
  by_cases h : (uploaded.map DocumentType.value).any (fun u => documents_match a u)
  · simp [h, List.mem_filter, ha]
  · simp [h, List.mem_filter]

theorem verify_percentage_formula (uploaded : List DocumentType)
    (process_type : ProcessType) :
    (verify_document_completeness uploaded process_type).completeness_percentage
      = if (requiredDocsFor process_type).length = 0 then 100
        else ((verify_document_completeness uploaded process_type).present_documents.length : ℚ)
          / (requiredDocsFor process_type).length * 100 := by
  simp only [verify_document_completeness]
  by_cases hl : (requiredDocsFor process_type).length = 0
  · rw [if_pos hl, if_neg (by omega)]
  · rw [if_neg hl, if_pos (by omega)]

/-- C5: the completeness report's missing list is the requirement list minus
the present documents, in requirement order, and the completeness percentage
is `present/required × 100` (100 when nothing is required); for the batch
{Articles of Association, Memorandum of Association} under the five-document
Company Incorporation process the percentage is `40.0` and the missing list is
exactly the other three required documents in requirement order. -/
theorem C5_completeness_report (uploaded : List DocumentType)
    (process_type : ProcessType) :
    ((verify_document_completeness uploaded process_type).missing_documents
        = (requiredDocsFor process_type).filter
            (fun d =>
              d ∉ (verify_document_completeness uploaded process_type).present_documents)) ∧
      ((verify_document_completeness uploaded process_type).completeness_percentage
        = if (requiredDocsFor process_type).length = 0 then 100
          else ((verify_document_completeness uploaded
              process_type).present_documents.length : ℚ)
            / (requiredDocsFor process_type).length * 100) ∧
      (verify_document_completeness
          [.articles_of_association, .memorandum_of_association]
          .company_incorporation).completeness_percentage = 40 ∧
      (verify_document_completeness
          [.articles_of_association, .memorandum_of_association]
          .company_incorporation).missing_documents
        = [str "UBO Declaration Form", str "Register of Members and Directors",
           str "Board Resolution Templates"] := by
  refine ⟨verify_missing_eq_filter uploaded process_type,
    verify_percentage_formula uploaded process_type, ?_, ?_⟩
  · rw [verify_percentage_formula]
    have hlen : (requiredDocsFor ProcessType.company_incorporation).length = 5 := by
      decide
    have hp : (verify_document_completeness
        [DocumentType.articles_of_association, DocumentType.memorandum_of_association]
        ProcessType.company_incorporation).present_documents.length = 2 := by
      decide
    rw [if_neg (by omega), hlen, hp]
    norm_num
  · decide

/-! ## C6 and C10 -/

theorem firstArgmax_eq_none {α : Type} (l : List (α × ℚ)) :
    firstArgmax l = none ↔ l = [] := by
  cases l with
  | nil => simp [firstArgmax]
  | cons x xs =>
      rw [firstArgmax]
      cases firstArgmax xs with
      | none => simp
      | some y =>
          by_cases h : y.2 > x.2 <;> simp [h]

theorem firstArgmax_mem {α : Type} (l : List (α × ℚ)) (m : α × ℚ)
    (h : firstArgmax l = some m) : m ∈ l ∧ ∀ q ∈ l, q.2 ≤ m.2 := by
  induction l generalizing m with
  | nil => cases h
  | cons x xs ih =>
      rw [firstArgmax] at h
      cases hxs : firstArgmax xs with
      | none =>
          rw [hxs] at h
          have h' : some x = some m := h
          have hm : x = m := Option.some.inj h'
          subst hm
          have hnil : xs = [] := (firstArgmax_eq_none xs).mp hxs
          subst hnil
          refine ⟨List.mem_singleton_self x, ?_⟩
          intro q hq
          rw [List.mem_singleton] at hq
          subst hq
          exact le_refl _
      | some y =>
          rw [hxs] at h
          have h' : (if y.2 > x.2 then some y else some x) = some m := h
          obtain ⟨hymem, hymax⟩ := ih y hxs
          by_cases hgt : y.2 > x.2
          · rw [if_pos hgt] at h'
            have hm : y = m := Option.some.inj h'
            subst hm
            refine ⟨List.mem_cons_of_mem x hymem, ?_⟩
            intro q hq
            rcases List.mem_cons.mp hq with rfl | hq
            · exact le_of_lt hgt
            · exact hymax q hq
          · rw [if_neg hgt] at h'
            have hm : x = m := Option.some.inj h'
            subst hm
            refine ⟨List.mem_cons_self x xs, ?_⟩
            intro q hq
            rcases List.mem_cons.mp hq with rfl | hq
            · exact le_refl _
            · exact le_trans (hymax q hq) (le_of_not_lt hgt)

theorem firstArgmax_first {α : Type} (d : α × ℚ) (l : List (α × ℚ)) (m : α × ℚ)
    (h : firstArgmax l = some m) :
    ∃ i, i < l.length ∧ l.getD i d = m ∧ ∀ j, j < i → (l.getD j d).2 < m.2 := by
  induction l generalizing m with
  | nil => cases h
  | cons x xs ih =>
      rw [firstArgmax] at h
      cases hxs : firstArgmax xs with
      | none =>
          rw [hxs] at h
          have h' : some x = some m := h
          have hm : x = m := Option.some.inj h'
          subst hm
          exact ⟨0, by simp, by simp, fun j hj => absurd hj (Nat.not_lt_zero j)⟩
      | some y =>
          rw [hxs] at h
          have h' : (if y.2 > x.2 then some y else some x) = some m := h
          by_cases hgt : y.2 > x.2
          · rw [if_pos hgt] at h'
            have hm : y = m := Option.some.inj h'
            subst hm
            obtain ⟨i, hi, hget, hlt⟩ := ih y hxs
            refine ⟨i + 1, by simpa using hi, by simpa using hget, ?_⟩
            intro j hj
            cases j with
            | zero => simpa using hgt
            | succ j' =>
                have := hlt j' (Nat.lt_of_succ_lt_succ hj)
                simpa using this
          · rw [if_neg hgt] at h'
            have hm : x = m := Option.some.inj h'
            subst hm
            exact ⟨0, by simp, by simp, fun j hj => absurd hj (Nat.not_lt_zero j)⟩

/-- C6: for every text, the classifier scores each candidate type as
(matched patterns)/(total patterns); when the maximal score reaches `0.30` the
returned pair is an entry of the score table whose score no other entry
exceeds (so the returned confidence is the returned type's own score and the
maximum); otherwise the classifier returns `Other` with confidence `0.0` and
every score is below `0.30`. -/
theorem C6_classifier_threshold (text : Chars) :
    (3 / 10 ≤ (identify_document_type text).2 ∧
        identify_document_type text ∈ typeScores text ∧
        ∀ q ∈ typeScores text, q.2 ≤ (identify_document_type text).2) ∨
      (identify_document_type text = (.other, 0) ∧
        ∀ q ∈ typeScores text, q.2 < 3 / 10) := by
  cases hfa : firstArgmax (typeScores text) with
  | none =>
      exfalso
      have hnil : typeScores text = [] := (firstArgmax_eq_none _).mp hfa
      have hlen : (typeScores text).length = typePatterns.length := by
        simp [typeScores]
      have h11 : typePatterns.length = 11 := rfl
      rw [hnil, h11] at hlen
      cases hlen
  | some m =>
      obtain ⟨hmem, hmax⟩ := firstArgmax_mem _ m hfa
      by_cases hth : 3 / 10 ≤ m.2
      · left
        have hstep : identify_document_type text
            = (if 3 / 10 ≤ m.2 then m else ((.other : DocumentType), (0 : ℚ))) := by
          unfold identify_document_type
          rw [hfa]
        have hid : identify_document_type text = m := by rw [hstep, if_pos hth]
        rw [hid]
        exact ⟨hth, hmem, hmax⟩
      · right
        have hstep : identify_document_type text
            = (if 3 / 10 ≤ m.2 then m else ((.other : DocumentType), (0 : ℚ))) := by
          unfold identify_document_type
          rw [hfa]
        have hid : identify_document_type text = (.other, 0) := by
          rw [hstep, if_neg hth]
        exact ⟨hid, fun q hq => lt_of_le_of_lt (hmax q hq) (lt_of_not_le hth)⟩

theorem typeScores_eq_natAux (text : Chars) :
    typeScores text
      = (typePatterns.map (fun tp =>
          (tp.1, typeScoreNat (toLowerStr text) tp.2, tp.2.length))).map
          (fun x => (x.1, (x.2.1 : ℚ) / x.2.2)) := by
  rw [typeScores, List.map_map]
  rfl

theorem tieText_identify :
    identify_document_type tieText = (.memorandum_of_association, 1 / 3) := by
  have hn : typePatterns.map (fun tp =>
      (tp.1, typeScoreNat (toLowerStr tieText) tp.2, tp.2.length))
      = [(.articles_of_association, 0, 7),
         (.memorandum_of_association, 2, 6),
         (.incorporation_application, 0, 6),
         (.ubo_declaration, 0, 6),
         (.board_resolution, 2, 6),
         (.register_members_directors, 0, 6),
         (.shareholder_resolution, 0, 6),
         (.change_address_notice, 0, 6),
         (.employment_contract, 0, 7),
         (.commercial_agreement, 0, 6),
         (.compliance_policy, 0, 6)] := by decide
  unfold identify_document_type
  rw [typeScores_eq_natAux, hn]
  norm_num [firstArgmax]

/-- C10: when the classification result passes the `0.30` threshold, the
returned (type, confidence) pair sits at the earliest index of the
pattern-table score list attaining the maximum: every entry at a strictly
smaller index has a strictly smaller score, so a tied type that appears later
in the table insertion order is never returned. -/
theorem C10_tie_break_first_in_table (text : Chars)
    (h : 3 / 10 ≤ (identify_document_type text).2) :
    ∃ i, i < (typeScores text).length ∧
      (typeScores text).getD i (.other, 0) = identify_document_type text ∧
      ∀ j, j < i →
        ((typeScores text).getD j (.other, 0)).2
          < (identify_document_type text).2 := by
  cases hfa : firstArgmax (typeScores text) with
  | none =>
      exfalso
      unfold identify_document_type at h
      rw [hfa] at h
      have h2 : (3 : ℚ) / 10 ≤ 0 := h
      norm_num at h2
  | some m =>
      have hstep : identify_document_type text
          = (if 3 / 10 ≤ m.2 then m else ((.other : DocumentType), (0 : ℚ))) := by
        unfold identify_document_type
        rw [hfa]
      by_cases hth : 3 / 10 ≤ m.2
      · have hid : identify_document_type text = m := by rw [hstep, if_pos hth]
        rw [hid]
        obtain ⟨i, hi, hget, hlt⟩ := firstArgmax_first (.other, 0) _ m hfa
        exact ⟨i, hi, hget, hlt⟩
      · exfalso
        rw [hstep, if_neg hth] at h
        have h2 : (3 : ℚ) / 10 ≤ 0 := h
        norm_num at h2

/-- Witness for C10: on `tieText`, Memorandum of Association and Board
Resolution tie at score `1/3 ≥ 0.3`, and the classifier returns the earlier
table entry (Memorandum of Association). -/
theorem C10_tie_break_first_in_table_witness :
    3 / 10 ≤ (identify_document_type tieText).2 ∧
      (∃ i, i < (typeScores tieText).length ∧
        (typeScores tieText).getD i (.other, 0) = identify_document_type tieText ∧
        ∀ j, j < i →
          ((typeScores tieText).getD j (.other, 0)).2
            < (identify_document_type tieText).2) := by
  have hc : 3 / 10 ≤ (identify_document_type tieText).2 := by
    rw [tieText_identify]
    norm_num
  exact ⟨hc, C10_tie_break_first_in_table tieText hc⟩

/-! ## C7 -/

/-- C7 counterexample: when the first check (jurisdiction) faults,
`check_compliance` returns the error — the issue produced by the successful
second check is not returned; no issue list is returned at all. -/
theorem C7_counterexample_error_propagates :
    check_compliance_sem (Except.error (str "RuleEngineError"))
        (Except.ok [sampleOkIssue]) (Except.ok []) (Except.ok []) (Except.ok [])
      = Except.error (str "RuleEngineError") := rfl

/-- C7 (amended): a faulting check is not caught inside the rule engine:
`check_compliance` propagates the first error past the remaining checks and
drops their issues, whichever check fails; the enclosing per-document handler
in `_analyze_single_document` catches the error and returns an empty issue
list with compliance score `0.0`. -/
theorem C7_check_failure_drops_all_issues (e : Chars)
    (r2 r3 r4 r5 rag rf : List DocumentIssue) (wc : ℕ) :
    check_compliance_sem (Except.error e) (Except.ok r2) (Except.ok r3)
        (Except.ok r4) (Except.ok r5) = Except.error e ∧
      (∀ s1 s3 s4 s5 : List DocumentIssue,
        check_compliance_sem (Except.ok s1) (Except.error e) (Except.ok s3)
          (Except.ok s4) (Except.ok s5) = Except.error e) ∧
      analyze_single_document (Except.error e) rag rf wc = ([], 0) :=
  ⟨rfl, fun _ _ _ _ => rfl, rfl⟩

/-! ## C8 -/

theorem take_take_drop_drop (cs : Chars) (s L : ℕ) :
    cs.take s ++ ((cs.drop s).take L ++ cs.drop (s + L)) = cs := by
  have h1 : cs.drop (s + L) = (cs.drop s).drop L := by
    rw [List.drop_drop, Nat.add_comm]
  rw [h1, List.take_append_drop, List.take_append_drop]

theorem highlight_preserves_text (p : Paragraph) (ht : Chars) :
    (highlight_text_in_paragraph p ht).text = p.text := by
  rw [highlight_text_in_paragraph]
  by_cases hc : containsSub (toLowerStr ht) (toLowerStr p.text) = true
  · rw [if_pos hc]
    cases hs : subIdx (toLowerStr ht) (toLowerStr p.text) with
    | none => rfl
    | some s =>
        show (((if 0 < s then [{ text := p.text.take s : Run }] else []) ++
            [{ text := (p.text.drop s).take ht.length, highlightYellow := true : Run }] ++
            (if s + ht.length < p.text.length then
              [{ text := p.text.drop (s + ht.length) : Run }]
            else [])).map Run.text).flatten = p.text
        by_cases h1 : 0 < s
        · by_cases h2 : s + ht.length < p.text.length
          · rw [if_pos h1, if_pos h2]
            show p.text.take s ++
              ((p.text.drop s).take ht.length ++ (p.text.drop (s + ht.length) ++ [])) = p.text
            rw [List.append_nil]
            exact take_take_drop_drop p.text s ht.length
          · rw [if_pos h1, if_neg h2]
            show p.text.take s ++ ((p.text.drop s).take ht.length ++ []) = p.text
            rw [List.append_nil]
            have hlen : (p.text.drop s).length ≤ ht.length := by
              rw [List.length_drop]
              omega
            rw [List.take_of_length_le hlen, List.take_append_drop]
        · have h0 : s = 0 := by omega
          subst h0
          rw [if_neg h1]
          by_cases h2 : 0 + ht.length < p.text.length
          · rw [if_pos h2]
            show ((p.text.drop 0).take ht.length ++ (p.text.drop (0 + ht.length) ++ [])) = p.text
            rw [List.append_nil]
            simp
          · rw [if_neg h2]
            show ((p.text.drop 0).take ht.length ++ []) = p.text
            rw [List.append_nil, List.drop_zero]
            have hlen : p.text.length ≤ ht.length := by omega
            exact List.take_of_length_le hlen
  · rw [if_neg hc]

theorem insertAt_sublist {α : Type} (n : ℕ) (a : α) (l : List α) :
    List.Sublist l (insertAt n a l) := by
  induction l generalizing n with
  | nil => simp [insertAt]
  | cons x xs ih =>
      cases n with
      | zero => exact List.sublist_cons_self a (x :: xs)
      | succ m => exact (ih m).cons₂ x

theorem map_insertAt {α β : Type} (f : α → β) (n : ℕ) (a : α) (l : List α) :
    (insertAt n a l).map f = insertAt n (f a) (l.map f) := by
  induction l generalizing n with
  | nil => simp [insertAt]
  | cons x xs ih =>
      cases n with
      | zero => simp [insertAt]
      | succ m => simp [insertAt, ih]

theorem map_text_set_highlight (doc : List Paragraph) (i : ℕ) (ht : Chars) :
    (doc.set i (highlight_text_in_paragraph (doc.getD i { runs := [] }) ht)).map
        Paragraph.text
      = doc.map Paragraph.text := by
  induction doc generalizing i with
  | nil => rfl
  | cons p ps ih =>
      cases i with
      | zero => simp [List.set, highlight_preserves_text]
      | succ j => simpa [List.set] using ih j

theorem insert_comment_map_text_sublist (doc : List Paragraph)
    (ins : CommentInsertion) :
    List.Sublist (doc.map Paragraph.text)
      ((insert_comment doc ins).map Paragraph.text) := by
  rw [insert_comment]
  by_cases h : ins.paragraph_index < doc.length
  · rw [if_pos h]
    cases hht : ins.highlight_text with
    | none =>
        show List.Sublist (doc.map Paragraph.text)
          ((insertAt (ins.paragraph_index + 1) (format_comment_paragraph ins)
            doc).map Paragraph.text)
        rw [map_insertAt]
        exact insertAt_sublist _ _ _
    | some ht =>
        by_cases he : ht = []
        · subst he
          show List.Sublist (doc.map Paragraph.text)
            ((insertAt (ins.paragraph_index + 1) (format_comment_paragraph ins)
              doc).map Paragraph.text)
          rw [map_insertAt]
          exact insertAt_sublist _ _ _
        · show List.Sublist (doc.map Paragraph.text)
            ((insertAt (ins.paragraph_index + 1) (format_comment_paragraph ins)
              (if ht = [] then doc
              else doc.set ins.paragraph_index
                (highlight_text_in_paragraph
                  (doc.getD ins.paragraph_index { runs := [] }) ht))).map
              Paragraph.text)
          rw [if_neg he, map_insertAt, map_text_set_highlight]
          exact insertAt_sublist _ _ _
  · rw [if_neg h]

theorem foldl_insert_comment_sublist (inss : List CommentInsertion)
    (doc : List Paragraph) :
    List.Sublist (doc.map Paragraph.text)
      ((inss.foldl insert_comment doc).map Paragraph.text) := by
  induction inss generalizing doc with
  | nil => exact List.Sublist.refl _
  | cons i is ih =>
      exact (insert_comment_map_text_sublist doc i).trans (ih (insert_comment doc i))

theorem add_summary_map_text_sublist (doc : List Paragraph)
    (issues : List DocumentIssue) :
    List.Sublist (doc.map Paragraph.text)
      ((add_summary_section doc issues).map Paragraph.text) := by
  cases doc with
  | nil => exact List.Sublist.refl _
  | cons p ps =>
      show List.Sublist ((p :: ps).map Paragraph.text)
        ((titleParagraph :: p :: ps).map Paragraph.text)
      exact List.Sublist.cons _ (List.Sublist.refl _)

/-- C8: annotation is frame-preserving at the text level: highlighting splits
a paragraph into before/match/after runs whose concatenation is exactly the
original text, the sequence of original paragraph texts survives annotation
verbatim and in order (as a sublist of the annotated document's paragraph
texts — nothing is removed or mutated), and the paragraph count never
decreases. -/
theorem C8_annotation_preserves_paragraphs :
    (∀ (p : Paragraph) (ht : Chars),
        (highlight_text_in_paragraph p ht).text = p.text) ∧
      ∀ (doc : List Paragraph) (issues : List DocumentIssue),
        List.Sublist (doc.map Paragraph.text)
            ((annotate_document doc issues).map Paragraph.text) ∧
          doc.length ≤ (annotate_document doc issues).length := by
  refine ⟨highlight_preserves_text, ?_⟩
  intro doc issues
  have hsub : List.Sublist (doc.map Paragraph.text)
      ((annotate_document doc issues).map Paragraph.text) := by
    rw [annotate_document]
    exact (foldl_insert_comment_sublist _ doc).trans (add_summary_map_text_sublist _ _)
  refine ⟨hsub, ?_⟩
  have := hsub.length_le
  simpa using this

/-! ## C9 -/

/-- C9 (code bug): `_create_summary_content` builds the summary lines in
exactly the claimed order (total count, per-severity counts in the order
Critical/High/Medium/Low, the first issue descriptions, closing hint) — shown
here for the single missing-ADGM-clause issue — but the insertion loop calls
the nonexistent `Paragraph.insert_paragraph_after()` and the handler swallows
the `AttributeError`, so for every issue list (empty or not) the document gets
only the bare title paragraph prepended: no affirmative line, no count line,
no issue description and no separator ever appears. -/
theorem C9_summary_content_never_inserted :
    create_summary_content [sampleOkIssue]
        = [str "📊 Total Issues Found: 1",
           str "",
           str "🔴 High: 1 issue(s)",
           str "",
           str "📝 Key Issues:",
           str "1. Missing ADGM jurisdiction clause",
           str "",
           str "💡 Please review the detailed comments throughout the document for specific guidance.",
           str ""] ∧
      (∀ issues : List DocumentIssue,
        (add_summary_section summaryDemoDoc issues).map Paragraph.text
          = [str "ADGM COMPLIANCE REVIEW SUMMARY",
             str "Company details follow."]) := by
  refine ⟨by decide, ?_⟩
  intro issues
  show (titleParagraph :: summaryDemoDoc).map Paragraph.text
    = [str "ADGM COMPLIANCE REVIEW SUMMARY", str "Company details follow."]
  decide

end ADGM
